import Mathlib

/-!
Shallow embedding of the CvFit repository.

The repository has two source files:
* `old_main_before_OPENAI.py` — the early heuristic scorer: JD keyword
  derivation, `keyword_score` (keyword hits, gaps, fuzzy title bonus) and
  the `analyze` response assembly;
* `main.py` — the hardened LLM-backed service: file-size gate, file-content
  extraction dispatch, per-file batch processing and a best-effort rate
  limiter.

Modelling conventions: Python strings are `List Char`, byte buffers are
`List Nat` (one `Nat` per byte), Python `int` is `Int`, `float`
timestamps and fuzzy similarity scores are `ℚ`, raised exceptions are
explicit error values, and stream side effects are explicit state passing.
External library calls (pdf/docx extraction, the OpenAI chat call) are
parameters of the embedded functions; the rapidfuzz similarity scorer and
the Python UTF-8 decoder are modelled from their documented behaviour.
-/

/-- Python `str.lower`, per-character lowering (the sources only compare
ASCII keywords). -/
def strLower (s : List Char) : List Char := s.map Char.toLower

/-- Python substring test `sub in s`: some position of `s` starts an
occurrence of `sub`. -/
def containsSub (s sub : List Char) : Bool :=
  (List.range (s.length + 1)).any (fun i => (s.drop i).take sub.length == sub)

/-- Python `str.endswith`. -/
def listEndsWith (s suf : List Char) : Bool :=
  s.drop (s.length - suf.length) == suf

/-- Insertion-deletion edit distance between two character lists, written
with an explicit fuel argument so that it is structurally recursive
(fuel `xs.length + ys.length` always suffices).  This is the InDel
distance underlying the rapidfuzz similarity used by the source. -/
def indelFuel : Nat → List Char → List Char → Nat
  | _, [], ys => ys.length
  | _, x :: xs, [] => (x :: xs).length
  | 0, _ :: _, _ :: _ => 0
  | fuel + 1, x :: xs, y :: ys =>
      if x == y then indelFuel fuel xs ys
      else 1 + Nat.min (indelFuel fuel xs (y :: ys)) (indelFuel fuel (x :: xs) ys)

/-- Insertion-deletion edit distance. -/
def indel (xs ys : List Char) : Nat := indelFuel (xs.length + ys.length) xs ys

/-- Models the external rapidfuzz `fuzz.ratio` scorer (normalized InDel
similarity on a 0–100 scale), written with `mkRat` so that it evaluates
inside the kernel. -/
def fuzzSim (a b : List Char) : ℚ :=
  if a.length + b.length = 0 then 100
  else mkRat (100 * ((a.length + b.length - indel a b : Nat) : Int)) (a.length + b.length)

/-- All windows (contiguous slices) of `l` of length `n`, by start index. -/
def windowsAt (l : List Char) (n : Nat) : List (List Char) :=
  (List.range (l.length - n + 1)).map (fun i => (l.drop i).take n)

/-- Models the external rapidfuzz partial-ratio scorer used by
`keyword_score`: the best `fuzzSim` alignment of the shorter string against
the same-length windows of the longer string (0 when a side is empty,
matching the library convention for empty inputs). -/
def bestWindowSim (s1 s2 : List Char) : ℚ :=
  let p := if s1.length ≤ s2.length then (s1, s2) else (s2, s1)
  if p.1.length = 0 then 0
  else ((windowsAt p.2 p.1.length).map (fun w => fuzzSim p.1 w)).foldl max 0

/-- One step of the fold modelling rapidfuzz `process.extractOne`: keep the
first candidate attaining the running maximum similarity. -/
def extractStep (q : List Char) (acc : Option (List Char × ℚ)) (c : List Char) :
    Option (List Char × ℚ) :=
  match acc with
  | none => some (c, bestWindowSim q c)
  | some bs => if bestWindowSim q c > bs.2 then some (c, bestWindowSim q c) else some bs

/-- Models rapidfuzz `process.extractOne q cs` with the partial-ratio
scorer: the best-scoring candidate (first one on ties), `none` for an
empty candidate list. -/
def extractOneBest (q : List Char) (cs : List (List Char)) : Option (List Char × ℚ) :=
  cs.foldl (extractStep q) none

/-! ## old_main_before_OPENAI.py — heuristic scorer -/

/-- The fixed role-title candidate list of `keyword_score`. -/
def titleCandidates : List (List Char) :=
  [ "technical support".toList, "support engineer".toList, "site reliability".toList,
    "devops".toList, "data engineer".toList, "qa".toList, "customer success".toList ]

/-- The hit label `role match: {best[0]}` appended for a fuzzy title match. -/
def roleLabel (b : List Char) : List Char := "role match: ".toList ++ b

/-- Final clamp of `keyword_score`: `score = max(0, min(100, score))`. -/
def clampScore (s : Int) : Int := max 0 (min 100 s)

/-- Loop body of the wanted-keyword pass of `keyword_score`: a present
keyword adds 10 points and a hit, an absent one is recorded as a gap. -/
def scoreStepWanted (cvl : List Char) (acc : Int × List (List Char) × List (List Char))
    (k : List Char) : Int × List (List Char) × List (List Char) :=
  if containsSub cvl k then (acc.1 + 10, acc.2.1 ++ [k], acc.2.2)
  else (acc.1, acc.2.1, acc.2.2 ++ [k])

/-- Loop body of the nice-to-have pass of `keyword_score`: a present
keyword adds 4 points and a hit; an absent one contributes nothing. -/
def scoreStepNice (cvl : List Char) (acc : Int × List (List Char) × List (List Char))
    (k : List Char) : Int × List (List Char) × List (List Char) :=
  if containsSub cvl k then (acc.1 + 4, acc.2.1 ++ [k], acc.2.2) else acc

/-- The fuzzy title bonus of `keyword_score`: compare the first 2000
characters of the lowercased CV against `titleCandidates`; similarity at
least 80 adds 6 points and a role-match hit. -/
def fuzzyTitleBonus (cvl : List Char) (acc : Int × List (List Char) × List (List Char)) :
    Int × List (List Char) × List (List Char) :=
  match extractOneBest (cvl.take 2000) titleCandidates with
  | some bs =>
      if 80 ≤ bs.2 then (acc.1 + 6, acc.2.1 ++ [roleLabel bs.1], acc.2.2) else acc
  | none => acc

/-- `keyword_score(cv_text, wanted, nice)` from `old_main_before_OPENAI.py`:
score, hits and gaps of the heuristic scorer, with the final `[0,100]`
clamp. -/
def keyword_score (cv_text : List Char) (wanted nice : List (List Char)) :
    Int × List (List Char) × List (List Char) :=
  let cv_lower := strLower cv_text
  let acc1 := wanted.foldl (scoreStepWanted cv_lower) (0, [], [])
  let acc2 := nice.foldl (scoreStepNice cv_lower) acc1
  let acc3 := fuzzyTitleBonus cv_lower acc2
  (clampScore acc3.1, acc3.2.1, acc3.2.2)

/-- `req_if(*keys)` of `analyze`: extend `wanted` with the keys not already
present. -/
def req_if (wanted keys : List (List Char)) : List (List Char) :=
  wanted ++ keys.filter (fun k => !(wanted.contains k))

/-- `nice_if(*keys)` of `analyze`: extend `nice` with the keys not already
present. -/
def nice_if (nice keys : List (List Char)) : List (List Char) :=
  nice ++ keys.filter (fun k => !(nice.contains k))

/-- The JD signal extraction inlined in `analyze` (lines 77–92 of
`old_main_before_OPENAI.py`): derive the `wanted` and `nice` keyword lists
from substring checks on the lowercased job description, in source order
(the `support` check comes last). -/
def deriveSkills (job_description : List Char) : List (List Char) × List (List Char) :=
  let jd_lower := strLower job_description
  let wanted0 : List (List Char) := []
  let nice0 : List (List Char) := []
  let wanted1 := if containsSub jd_lower ("sql".toList) then req_if wanted0 [ "sql".toList ] else wanted0
  let wanted2 :=
    if containsSub jd_lower ("rest".toList) || containsSub jd_lower ("api".toList) then
      req_if wanted1 [ "api".toList, "rest".toList ] else wanted1
  let wanted3 := if containsSub jd_lower ("linux".toList) then req_if wanted2 [ "linux".toList ] else wanted2
  let nice1 := if containsSub jd_lower ("aws".toList) then nice_if nice0 [ "aws".toList ] else nice0
  let nice2 :=
    if containsSub jd_lower ("grafana".toList) || containsSub jd_lower ("opensearch".toList) then
      nice_if nice1 [ "grafana".toList, "opensearch".toList ] else nice1
  let nice3 :=
    if containsSub jd_lower ("python".toList) || containsSub jd_lower ("bash".toList) then
      nice_if nice2 [ "python".toList, "bash".toList ] else nice2
  let nice4 := if containsSub jd_lower ("kubernetes".toList) then nice_if nice3 [ "kubernetes".toList ] else nice3
  let wanted4 := if containsSub jd_lower ("support".toList) then req_if wanted3 [ "support".toList ] else wanted3
  (wanted4, nice4)

/-- The trigger substrings consulted by `deriveSkills`. -/
def triggerList : List (List Char) :=
  [ "sql".toList, "rest".toList, "api".toList, "linux".toList, "aws".toList,
    "grafana".toList, "opensearch".toList, "python".toList, "bash".toList,
    "kubernetes".toList, "support".toList ]

/-- Response schema of the heuristic `analyze` endpoint. -/
structure AnalysisResponse where
  fit_score : Int
  highlights : List (List Char)
  gaps : List (List Char)
  salary_range : List Char
  suggestions : List (List Char)
deriving DecidableEq

/-- Suggestion template for a missing `sql` gap. -/
def suggSql : List Char :=
  "Add a bullet with SQL: queries you ran, logs you analyzed, or metrics you computed.".toList

/-- Suggestion template for a missing `api`/`rest` gap. -/
def suggApi : List Char :=
  "Mention REST APIs you integrated/troubleshot; include tools and error codes.".toList

/-- Suggestion template for a missing `linux` gap. -/
def suggLinux : List Char :=
  "Show Linux experience (shell, logs, services, systemctl, journalctl).".toList

/-- Suggestion template for a missing `support` gap. -/
def suggSupport : List Char :=
  "Quantify support impact (tickets/week, SLA, MTTR, escalations handled).".toList

/-- The generic fallback suggestion. -/
def suggFallback : List Char :=
  "Looks good—tighten bullets with numbers and outcomes.".toList

/-- The hardcoded salary-range string of the heuristic `analyze`. -/
def salaryNote : List Char :=
  "₪17K–₪23K gross (rough guide; adjust by seniority/company).".toList

/-- The heuristic `analyze` pipeline of `old_main_before_OPENAI.py`
(after text extraction): derive the keyword sets, score the CV, build the
template suggestions and assemble the bounded response. -/
def analyze (job_description cv_text : List Char) : AnalysisResponse :=
  let wn := deriveSkills job_description
  let r := keyword_score cv_text wn.1 wn.2
  let fit := r.1
  let hits := r.2.1
  let missing := r.2.2
  let suggestions :=
    (if missing.contains ("sql".toList) then [suggSql] else []) ++
    (if missing.contains ("api".toList) || missing.contains ("rest".toList) then [suggApi] else []) ++
    (if missing.contains ("linux".toList) then [suggLinux] else []) ++
    (if missing.contains ("support".toList) then [suggSupport] else [])
  let gap_msgs := missing.map (fun m => "Missing signal for: ".toList ++ m)
  { fit_score := fit
    highlights := (hits.map (fun h => "Found: ".toList ++ h)).take 6
    gaps := gap_msgs.take 6
    salary_range := salaryNote
    suggestions :=
      if (suggestions.take 6).isEmpty then [suggFallback] else suggestions.take 6 }

/-! ## main.py — hardened service -/

/-- A Python exception value: either a fastapi `HTTPException` with a
status code and detail string, or a library/runtime error with a
message. -/
inductive PyExc where
  | http (status : Nat) (detail : List Char)
  | lib (msg : List Char)
deriving DecidableEq

/-- The message text used when a caught exception `e` is interpolated as
`f"Error: {e}"`; the Python `str(e)` rendering is modelled as the carried
detail/message string. -/
def pyExcMsg : PyExc → List Char
  | .http _ d => d
  | .lib m => m

/-- A seekable byte stream (the `upload.file` object): the byte buffer and
the current position. -/
structure FileStream where
  data : List Nat
  pos : Nat
deriving DecidableEq

/-- A fastapi `UploadFile`: the declared filename (possibly absent) and
the underlying stream. -/
structure UploadedFile where
  filename : Option (List Char)
  file : FileStream
deriving DecidableEq

/-- Python `(upload.filename or "")`. -/
def uploadName (up : UploadedFile) : List Char :=
  match up.filename with
  | none => []
  | some n => n

/-- Detail string of the 413 error of `_ensure_size`; the real message
interpolates the size rounded to two decimals as a float, which is not
modelled (no claim concerns the message text). -/
def fileTooLargeDetail : List Char := "File too large".toList

/-- `_ensure_size` of `main.py`: seek to end of stream to learn the size,
restore the position, and fail with HTTP 413 when the size exceeds
`MAX_FILE_SIZE_MB` megabytes.  The returned stream is the state of
`upload.file` after the call (position restored in both outcomes). -/
def ensure_size (maxMB : Nat) (f : FileStream) : FileStream × Option PyExc :=
  let pos := f.pos
  let f1 : FileStream := { f with pos := f.data.length }
  let size := f1.pos
  let f2 : FileStream := { f1 with pos := pos }
  if size > maxMB * 1024 * 1024 then (f2, some (PyExc.http 413 fileTooLargeDetail))
  else (f2, none)

/-- Continuation byte test for UTF-8 decoding. -/
def isCont (b : Nat) : Bool := 0x80 ≤ b && b < 0xC0

/-- Valid second byte of a three-byte UTF-8 sequence (excludes overlong
encodings and surrogates). -/
def utf8Cont2 (b b2 : Nat) : Bool :=
  if b == 0xE0 then 0xA0 ≤ b2 && b2 < 0xC0
  else if b == 0xED then 0x80 ≤ b2 && b2 < 0xA0
  else isCont b2

/-- Valid second byte of a four-byte UTF-8 sequence (excludes overlong
encodings and code points above U+10FFFF). -/
def utf8Cont4 (b b2 : Nat) : Bool :=
  if b == 0xF0 then 0x90 ≤ b2 && b2 < 0xC0
  else if b == 0xF4 then 0x80 ≤ b2 && b2 < 0x90
  else isCont b2

/-- Fueled worker of the lossy UTF-8 decoder: decodes valid sequences and
skips invalid bytes.  Each step consumes at least one byte, so fuel equal
to the byte count suffices. -/
def utf8Go : Nat → List Nat → List Char
  | 0, _ => []
  | _ + 1, [] => []
  | fuel + 1, b :: rest =>
    if b < 0x80 then Char.ofNat b :: utf8Go fuel rest
    else if 0xC2 ≤ b && b ≤ 0xDF then
      match rest with
      | b2 :: rest2 =>
        if isCont b2 then Char.ofNat ((b - 0xC0) * 64 + (b2 - 0x80)) :: utf8Go fuel rest2
        else utf8Go fuel rest
      | [] => []
    else if 0xE0 ≤ b && b ≤ 0xEF then
      match rest with
      | b2 :: b3 :: rest3 =>
        if utf8Cont2 b b2 && isCont b3 then
          Char.ofNat ((b - 0xE0) * 4096 + (b2 - 0x80) * 64 + (b3 - 0x80)) :: utf8Go fuel rest3
        else utf8Go fuel rest
      | _ => utf8Go fuel rest
    else if 0xF0 ≤ b && b ≤ 0xF4 then
      match rest with
      | b2 :: b3 :: b4 :: rest4 =>
        if utf8Cont4 b b2 && isCont b3 && isCont b4 then
          Char.ofNat ((b - 0xF0) * 262144 + (b2 - 0x80) * 4096 + (b3 - 0x80) * 64 + (b4 - 0x80))
            :: utf8Go fuel rest4
        else utf8Go fuel rest
      | _ => utf8Go fuel rest
    else utf8Go fuel rest

/-- Models Python `content.decode(errors="ignore")`: best-effort lossy
UTF-8 decoding that drops undecodable bytes and never raises. -/
def utf8DecodeIgnore (bs : List Nat) : List Char := utf8Go bs.length bs

/-- `_read_file_content` of `main.py`: size gate, then read the stream,
seek back to the start, and dispatch on the lowercased filename suffix.
The `.docx` and `.pdf` decoders are external libraries and are passed in
as (fallible) parameters.  The final fallback decodes the bytes as lossy
UTF-8; the `except` arm of the source that would raise HTTP 400 is
unreachable because `bytes.decode(errors="ignore")` is total.  The first
component is the state of `upload.file` after the call. -/
def read_file_content (docxExtract pdfExtract : List Nat → Except PyExc (List Char))
    (maxMB : Nat) (upload : UploadedFile) : FileStream × Except PyExc (List Char) :=
  match ensure_size maxMB upload.file with
  | (f, some e) => (f, Except.error e)
  | (f, none) =>
    let content := f.data.drop f.pos
    let f1 : FileStream := { f with pos := 0 }
    let name := strLower (uploadName upload)
    if listEndsWith name (".txt".toList) then (f1, Except.ok (utf8DecodeIgnore content))
    else if listEndsWith name (".docx".toList) then (f1, docxExtract content)
    else if listEndsWith name (".pdf".toList) then (f1, pdfExtract content)
    else (f1, Except.ok (utf8DecodeIgnore content))

/-- Fixed text of `_build_analysis_prompt` before the CV excerpt. -/
def promptHead : List Char :=
  "\nYou are an expert technical recruiter and hiring manager. Analyze the candidate CV against the job description.\n\nReturn ONLY a JSON object with these keys and types:\n- improvement_suggestions: string[] (3-8 bullets, concise)\n- fit_score: number (0-100)\n- fit_reason: string\n- expected_salary_note: string\n\nCV:\n\"\"\"".toList

/-- Fixed text of `_build_analysis_prompt` between the CV and the JD. -/
def promptMid : List Char := "\"\"\"\n\nJOB DESCRIPTION:\n\"\"\"".toList

/-- Fixed text of `_build_analysis_prompt` after the JD. -/
def promptTail : List Char :=
  "\"\"\"\n\nBe factual and specific; avoid hallucinations. Keep salary note for Israel (gross/month) as a broad range when uncertain.\n".toList

/-- `_build_analysis_prompt` of `main.py`: template interpolation of the
CV text and the job description. -/
def build_analysis_prompt (cv_text jd_text : List Char) : List Char :=
  promptHead ++ cv_text ++ promptMid ++ jd_text ++ promptTail

/-- The validated `AnalyzeResponse` schema of `main.py`. -/
structure AnalyzeResponse where
  improvement_suggestions : List (List Char)
  fit_score : Int
  fit_reason : List Char
  expected_salary_note : List Char
deriving DecidableEq

/-- One entry of the batch response. -/
structure BatchAnalyzeItem where
  filename : List Char
  result : AnalyzeResponse
deriving DecidableEq

/-- The batch response schema of `main.py`. -/
structure BatchAnalyzeResponse where
  job_description : List Char
  results : List BatchAnalyzeItem
deriving DecidableEq

/-- The `try` body of the per-file loop of `analyze_batch`: extract the
file text (truncated to 120000 characters), build the prompt, and run the
external chat call (`_chat_json` composed with pydantic validation,
modelled as the fallible parameter `chat`). -/
def fileOutcome (docxExtract pdfExtract : List Nat → Except PyExc (List Char))
    (chat : List Char → Except PyExc AnalyzeResponse)
    (maxMB : Nat) (jd : List Char) (f : UploadedFile) : Except PyExc AnalyzeResponse :=
  match (read_file_content docxExtract pdfExtract maxMB f).2 with
  | Except.error e => Except.error e
  | Except.ok cv_text => chat (build_analysis_prompt (cv_text.take 120000) jd)

/-- Python `f.filename or "cv"` (both a missing and an empty filename fall
back to `"cv"`). -/
def fileLabel (f : UploadedFile) : List Char :=
  match f.filename with
  | none => "cv".toList
  | some n => if n.isEmpty then "cv".toList else n

/-- The placeholder entry recorded when processing one file of the batch
raises: score 0 and a reason string carrying the error. -/
def failedItem (f : UploadedFile) (e : PyExc) : BatchAnalyzeItem :=
  { filename := fileLabel f
    result :=
      { improvement_suggestions := [ "Processing failed.".toList ]
        fit_score := 0
        fit_reason := "Error: ".toList ++ pyExcMsg e
        expected_salary_note := "N/A".toList } }

/-- The per-file loop body of `analyze_batch`: a successful pipeline run
yields a normal item, any raised error yields the placeholder item. -/
def processOne (docxExtract pdfExtract : List Nat → Except PyExc (List Char))
    (chat : List Char → Except PyExc AnalyzeResponse)
    (maxMB : Nat) (jd : List Char) (f : UploadedFile) : BatchAnalyzeItem :=
  match fileOutcome docxExtract pdfExtract chat maxMB jd f with
  | Except.ok data => { filename := fileLabel f, result := data }
  | Except.error e => failedItem f e

/-- `analyze_batch` of `main.py`: truncate the shared job description to
60000 characters, process every uploaded file in order (isolating per-file
failures), and return the per-file results with the original job
description. -/
def analyze_batch (docxExtract pdfExtract : List Nat → Except PyExc (List Char))
    (chat : List Char → Except PyExc AnalyzeResponse)
    (maxMB : Nat) (job_description : List Char) (files : List UploadedFile) :
    BatchAnalyzeResponse :=
  { job_description := job_description
    results := files.map (processOne docxExtract pdfExtract chat maxMB (job_description.take 60000)) }

/-- `_MIN_INTERVAL_SEC = 0.5` of `main.py`. -/
def MIN_INTERVAL_SEC : ℚ := mkRat 1 2

/-- `rate_limit` of `main.py` as a state-passing function on the global
`_LAST_CALL_TS` timestamp (time values modelled as `ℚ`): a call closer
than `MIN_INTERVAL_SEC` to the last accepted call raises HTTP 429 and
leaves the timestamp unchanged; otherwise the timestamp becomes `now`. -/
def rate_limit (lastCallTs now : ℚ) : ℚ × Option PyExc :=
  if now - lastCallTs < MIN_INTERVAL_SEC then
    (lastCallTs, some (PyExc.http 429 ("Too many requests; please slow down.".toList)))
  else (now, none)

/-- The timestamp state after a sequence of calls at the given times. -/
def rateLimitRun (lastCallTs : ℚ) (calls : List ℚ) : ℚ :=
  calls.foldl (fun s t => (rate_limit s t).1) lastCallTs

/-! ## Helper lemmas: substring test -/

theorem containsSub_iff (s sub : List Char) :
    containsSub s sub = true ↔ ∃ i, i < s.length + 1 ∧ (s.drop i).take sub.length = sub := by
  unfold containsSub
  rw [List.any_eq_true]
  constructor
  · rintro ⟨i, hi, hbeq⟩
    exact ⟨i, List.mem_range.mp hi, by simpa using hbeq⟩
  · rintro ⟨i, hi, heq⟩
    exact ⟨i, List.mem_range.mpr hi, by simpa using heq⟩

theorem containsSub_map (f : Char → Char) {s sub : List Char}
    (h : containsSub s sub = true) : containsSub (s.map f) (sub.map f) = true := by
  rw [containsSub_iff] at h ⊢
  obtain ⟨i, hi, heq⟩ := h
  refine ⟨i, by simpa using hi, ?_⟩
  rw [List.length_map, ← List.map_drop, ← List.map_take, heq]

theorem containsSub_of_take_eq {p m sub : List Char} (h : p.take sub.length = sub) :
    containsSub (p ++ m) sub = true := by
  rw [containsSub_iff]
  refine ⟨0, Nat.succ_pos _, ?_⟩
  have hlen : sub.length ≤ p.length := by
    have hl := congrArg List.length h
    simp only [List.length_take] at hl
    omega
  rw [List.drop_zero, List.take_append_eq_append_take, h,
    Nat.sub_eq_zero_of_le hlen, List.take_zero, List.append_nil]

/-! ## Helper lemmas: maximum folds over the rationals -/

theorem foldl_max_le_of (l : List ℚ) (init c : ℚ) (h0 : init ≤ c)
    (h : ∀ x ∈ l, x ≤ c) : l.foldl max init ≤ c := by
  induction l generalizing init with
  | nil => simpa using h0
  | cons a t ih =>
    simp only [List.foldl_cons]
    exact ih _ (max_le h0 (h a (by simp))) (fun x hx => h x (by simp [hx]))

theorem le_foldl_max_init (l : List ℚ) (init : ℚ) : init ≤ l.foldl max init := by
  induction l generalizing init with
  | nil => simp
  | cons a t ih => exact le_trans (le_max_left _ _) (ih (max init a))

theorem le_foldl_max_of_mem {x : ℚ} {l : List ℚ} (init : ℚ) (h : x ∈ l) :
    x ≤ l.foldl max init := by
  induction l generalizing init with
  | nil => cases h
  | cons a t ih =>
    simp only [List.foldl_cons]
    rcases List.mem_cons.mp h with rfl | ht
    · exact le_trans (le_max_right _ _) (le_foldl_max_init t _)
    · exact ih _ ht

/-! ## Helper lemmas: similarity scorer -/

theorem indelFuel_self (a : List Char) : ∀ f, a.length ≤ f → indelFuel f a a = 0 := by
  induction a with
  | nil => intro f _; cases f <;> simp [indelFuel]
  | cons x xs ih =>
    intro f hf
    cases f with
    | zero => simp at hf
    | succ f =>
      simp only [indelFuel]
      rw [if_pos (by simp)]
      exact ih f (by simpa using hf)

theorem indel_self (a : List Char) : indel a a = 0 := by
  unfold indel
  exact indelFuel_self a _ (by omega)

theorem fuzzSim_self (a : List Char) : fuzzSim a a = 100 := by
  unfold fuzzSim
  rcases Nat.eq_zero_or_pos a.length with h | h
  · rw [if_pos (by omega)]
  · rw [if_neg (by omega), indel_self, Nat.sub_zero, Rat.mkRat_eq_div]
    have hne : ((a.length + a.length : Nat) : ℚ) ≠ 0 := by
      exact_mod_cast (by omega : (a.length + a.length : Nat) ≠ 0)
    push_cast
    rw [mul_div_assoc, div_self (by push_cast at hne; exact hne), mul_one]

theorem fuzzSim_le_100 (a b : List Char) : fuzzSim a b ≤ 100 := by
  unfold fuzzSim
  split
  · exact le_refl _
  · rename_i h
    rw [Rat.mkRat_eq_div]
    have hpos : (0:ℚ) < ((a.length + b.length : Nat) : ℚ) := by
      exact_mod_cast Nat.pos_of_ne_zero h
    rw [div_le_iff₀ hpos]
    have hsub : ((a.length + b.length - indel a b : Nat) : ℚ) ≤ ((a.length + b.length : Nat) : ℚ) := by
      exact_mod_cast Nat.sub_le _ _
    push_cast at hsub ⊢
    nlinarith

theorem bestWindowSim_le_100 (s1 s2 : List Char) : bestWindowSim s1 s2 ≤ 100 := by
  simp only [bestWindowSim]
  generalize (if s1.length ≤ s2.length then (s1, s2) else (s2, s1)) = q
  split
  · norm_num
  · refine foldl_max_le_of _ _ _ (by norm_num) ?_
    intro x hx
    obtain ⟨w, _, rfl⟩ := List.mem_map.mp hx
    exact fuzzSim_le_100 _ _

theorem bestWindowSim_self {a : List Char} (h : a ≠ []) : bestWindowSim a a = 100 := by
  have hpos : 0 < a.length := List.length_pos.mpr h
  simp only [bestWindowSim, ite_self]
  rw [if_neg (by omega)]
  unfold windowsAt
  rw [Nat.sub_self]
  simp only [List.range_succ, List.range_zero, List.nil_append, List.map_cons, List.map_nil,
    List.drop_zero, List.take_length, List.foldl_cons, List.foldl_nil, fuzzSim_self]
  norm_num

theorem bestWindowSim_eq_100_of_occ {q sub : List Char} (hne : sub ≠ [])
    (h : containsSub q sub = true) : bestWindowSim q sub = 100 := by
  obtain ⟨i, _, heq⟩ := (containsSub_iff q sub).mp h
  have hpos : 0 < sub.length := List.length_pos.mpr hne
  have hlen : i + sub.length ≤ q.length := by
    have hl := congrArg List.length heq
    simp only [List.length_take, List.length_drop] at hl
    omega
  rcases Nat.lt_or_ge sub.length q.length with hlt | hge
  · simp only [bestWindowSim]
    rw [if_neg (by omega : ¬ q.length ≤ sub.length)]
    dsimp only
    rw [if_neg hpos.ne']
    apply le_antisymm
    · refine foldl_max_le_of _ _ _ (by norm_num) ?_
      intro x hx
      obtain ⟨w, _, rfl⟩ := List.mem_map.mp hx
      exact fuzzSim_le_100 _ _
    · have hwin : sub ∈ windowsAt q sub.length := by
        unfold windowsAt
        exact List.mem_map.mpr ⟨i, List.mem_range.mpr (by omega), heq⟩
      have hmem : fuzzSim sub sub ∈ (windowsAt q sub.length).map (fun w => fuzzSim sub w) :=
        List.mem_map_of_mem _ hwin
      calc (100:ℚ) = fuzzSim sub sub := (fuzzSim_self sub).symm
        _ ≤ _ := le_foldl_max_of_mem _ hmem
  · have hq : q.length = sub.length := by omega
    have hi0 : i = 0 := by omega
    subst hi0
    rw [List.drop_zero] at heq
    have hqs : q = sub := by rw [← heq, ← hq, List.take_length]
    rw [hqs]
    exact bestWindowSim_self hne

/-! ## Helper lemmas: extractOne and the scorer folds -/

theorem extractOne_go (q : List Char) (cs : List (List Char)) :
    ∀ b0 s0, s0 = bestWindowSim q b0 →
      ∃ b s, cs.foldl (extractStep q) (some (b0, s0)) = some (b, s) ∧
        (b = b0 ∨ b ∈ cs) ∧ s = bestWindowSim q b ∧ s0 ≤ s ∧
        ∀ c ∈ cs, bestWindowSim q c ≤ s := by
  induction cs with
  | nil =>
    intro b0 s0 h0
    exact ⟨b0, s0, rfl, Or.inl rfl, h0, le_refl _, by simp⟩
  | cons c t ih =>
    intro b0 s0 h0
    simp only [List.foldl_cons, extractStep]
    by_cases hc : bestWindowSim q c > s0
    · rw [if_pos hc]
      obtain ⟨b, s, hfold, hbmem, hs, hle, hball⟩ := ih c _ rfl
      refine ⟨b, s, hfold, ?_, hs, le_trans (le_of_lt hc) hle, ?_⟩
      · rcases hbmem with rfl | hb
        · exact Or.inr (by simp)
        · exact Or.inr (by simp [hb])
      · intro d hd
        rcases List.mem_cons.mp hd with rfl | hdt
        · exact hle
        · exact hball d hdt
    · rw [if_neg hc]
      obtain ⟨b, s, hfold, hbmem, hs, hle, hball⟩ := ih b0 s0 h0
      refine ⟨b, s, hfold, ?_, hs, hle, ?_⟩
      · rcases hbmem with rfl | hb
        · exact Or.inl rfl
        · exact Or.inr (by simp [hb])
      · intro d hd
        rcases List.mem_cons.mp hd with rfl | hdt
        · exact le_trans (le_of_not_lt hc) hle
        · exact hball d hdt

theorem extractOneBest_spec (q : List Char) (cs : List (List Char)) (h : cs ≠ []) :
    ∃ b s, extractOneBest q cs = some (b, s) ∧ b ∈ cs ∧ s = bestWindowSim q b ∧
      ∀ c ∈ cs, bestWindowSim q c ≤ s := by
  match cs, h with
  | c :: t, _ =>
    unfold extractOneBest
    simp only [List.foldl_cons, extractStep]
    obtain ⟨b, s, hfold, hbmem, hs, hle, hball⟩ := extractOne_go q t c (bestWindowSim q c) rfl
    refine ⟨b, s, hfold, ?_, hs, ?_⟩
    · rcases hbmem with rfl | hb
      · exact List.mem_cons_self _ _
      · exact List.mem_cons_of_mem _ hb
    · intro d hd
      rcases List.mem_cons.mp hd with rfl | hdt
      · exact hle
      · exact hball d hdt

theorem foldl_wanted (cvl : List Char) (ks : List (List Char)) :
    ∀ acc : Int × List (List Char) × List (List Char),
      ks.foldl (scoreStepWanted cvl) acc =
        (acc.1 + 10 * ((ks.filter (fun k => containsSub cvl k)).length : Int),
         acc.2.1 ++ ks.filter (fun k => containsSub cvl k),
         acc.2.2 ++ ks.filter (fun k => !(containsSub cvl k))) := by
  induction ks with
  | nil => intro acc; simp
  | cons k t ih =>
    intro acc
    simp only [List.foldl_cons, scoreStepWanted, List.filter_cons]
    by_cases hk : containsSub cvl k = true
    · rw [if_pos hk, ih]
      simp only [hk, if_pos, Bool.not_true, if_neg, List.length_cons]
      refine congrArg₂ _ (by push_cast; ring) (congrArg₂ _ ?_ rfl)
      simp
    · rw [if_neg hk, ih]
      have hk' : containsSub cvl k = false := by
        simpa using hk
      simp only [hk', Bool.not_false, if_neg, if_pos, List.length_cons]
      refine congrArg₂ _ rfl (congrArg₂ _ rfl ?_)
      simp

theorem foldl_nice (cvl : List Char) (ks : List (List Char)) :
    ∀ acc : Int × List (List Char) × List (List Char),
      ks.foldl (scoreStepNice cvl) acc =
        (acc.1 + 4 * ((ks.filter (fun k => containsSub cvl k)).length : Int),
         acc.2.1 ++ ks.filter (fun k => containsSub cvl k),
         acc.2.2) := by
  induction ks with
  | nil => intro acc; simp
  | cons k t ih =>
    intro acc
    simp only [List.foldl_cons, scoreStepNice, List.filter_cons]
    by_cases hk : containsSub cvl k = true
    · rw [if_pos hk, ih]
      simp only [hk, if_pos, List.length_cons]
      refine congrArg₂ _ (by push_cast; ring) (congrArg₂ _ ?_ rfl)
      simp
    · rw [if_neg hk, ih]
      have hk' : containsSub cvl k = false := by
        simpa using hk
      simp only [hk', if_neg]
      rfl

/-- Rewriting form of `fuzzyTitleBonus` once the best candidate is
known. -/
theorem fuzzyTitleBonus_eq (cvl : List Char)
    (b : List Char) (s : ℚ)
    (hbest : extractOneBest (cvl.take 2000) titleCandidates = some (b, s)) :
    ∀ acc : Int × List (List Char) × List (List Char),
      fuzzyTitleBonus cvl acc =
        if 80 ≤ s then (acc.1 + 6, acc.2.1 ++ [roleLabel b], acc.2.2) else acc := by
  intro acc
  unfold fuzzyTitleBonus
  rw [hbest]

/-- Structural characterization of `keyword_score`: gaps are exactly the
absent wanted keywords, hits are the present wanted keywords followed by
the present nice keywords followed by at most one role-match label, and
the score is the clamped weighted sum. -/
theorem keyword_score_char (cv : List Char) (wanted nice : List (List Char)) :
    ∃ extra : List (List Char),
      (extra = [] ∨ ∃ b, b ∈ titleCandidates ∧ extra = [roleLabel b]) ∧
      keyword_score cv wanted nice =
        (clampScore (10 * ((wanted.filter (fun k => containsSub (strLower cv) k)).length : Int) +
             4 * ((nice.filter (fun k => containsSub (strLower cv) k)).length : Int) +
             6 * (extra.length : Int)),
         wanted.filter (fun k => containsSub (strLower cv) k) ++
           nice.filter (fun k => containsSub (strLower cv) k) ++ extra,
         wanted.filter (fun k => !(containsSub (strLower cv) k))) := by
  obtain ⟨b, s, hbest, hbmem, hs, hball⟩ :=
    extractOneBest_spec ((strLower cv).take 2000) titleCandidates (by decide)
  simp only [keyword_score]
  rw [foldl_wanted, foldl_nice, fuzzyTitleBonus_eq _ _ _ hbest]
  by_cases hth : (80:ℚ) ≤ s
  · refine ⟨[roleLabel b], Or.inr ⟨b, hbmem, rfl⟩, ?_⟩
    rw [if_pos hth]
    refine congrArg₂ _ ?_ (congrArg₂ _ ?_ rfl)
    · dsimp only
      refine congrArg _ ?_
      simp only [List.length_singleton, List.length_nil]
      push_cast
      ring
    · dsimp only
      simp [List.append_assoc]
  · refine ⟨[], Or.inl rfl, ?_⟩
    rw [if_neg hth]
    refine congrArg₂ _ ?_ (congrArg₂ _ ?_ rfl)
    · dsimp only
      refine congrArg _ ?_
      simp only [List.length_singleton, List.length_nil]
      push_cast
      ring
    · dsimp only
      simp

/-! ## Claim theorems: heuristic scorer -/

/-- C1: for every résumé text and every pair of keyword lists, the score
returned by `keyword_score` is an integer in the interval [0,100]; no
combination of keyword matches and the fuzzy-title bonus drives it outside
that range. -/
theorem claim_c1_keyword_score_bounds (cv : List Char) (wanted nice : List (List Char)) :
    0 ≤ (keyword_score cv wanted nice).1 ∧ (keyword_score cv wanted nice).1 ≤ 100 := by
  obtain ⟨extra, _, heq⟩ := keyword_score_char cv wanted nice
  rw [heq]
  dsimp only
  unfold clampScore
  exact ⟨le_max_left 0 _, max_le (by norm_num) (min_le_left _ _)⟩

/-- C9 (implicit): in `keyword_score` the gaps are exactly the wanted
keywords absent from the lowercased résumé text and the hits are exactly
the present wanted keywords, then the present nice keywords, then at most
one fuzzy role-match label; an absent nice keyword contributes no hit, no
gap and no points (the score is the clamped weighted sum of the present
keywords and the bonus). -/
theorem claim_c9_hits_gaps_partition (cv : List Char) (wanted nice : List (List Char)) :
    ∃ extra : List (List Char),
      (keyword_score cv wanted nice).2.2 =
          wanted.filter (fun k => !(containsSub (strLower cv) k)) ∧
      (keyword_score cv wanted nice).2.1 =
          wanted.filter (fun k => containsSub (strLower cv) k) ++
            nice.filter (fun k => containsSub (strLower cv) k) ++ extra ∧
      extra.length ≤ 1 ∧
      (extra = [] ∨ ∃ b, b ∈ titleCandidates ∧ extra = [roleLabel b]) ∧
      (keyword_score cv wanted nice).1 =
        clampScore (10 * ((wanted.filter (fun k => containsSub (strLower cv) k)).length : Int) +
          4 * ((nice.filter (fun k => containsSub (strLower cv) k)).length : Int) +
          6 * (extra.length : Int)) := by
  obtain ⟨extra, hex, heq⟩ := keyword_score_char cv wanted nice
  have hlen : extra.length ≤ 1 := by
    rcases hex with rfl | ⟨b, _, rfl⟩ <;> simp
  exact ⟨extra, by rw [heq], by rw [heq], hlen, hex, by rw [heq]⟩

/-- C3: a résumé text containing the literal substring `devops` within its
first 2000 characters, scored with empty wanted and nice sets, makes the
best fuzzy match against the fixed title candidates reach similarity at
least 80, so the 6-point bonus fires, a role-match hit is recorded, and
the final score is exactly 6. -/
theorem claim_c3_devops_fuzzy_bonus (cv : List Char)
    (h : containsSub (cv.take 2000) ("devops".toList) = true) :
    (∃ b s, extractOneBest ((strLower cv).take 2000) titleCandidates = some (b, s) ∧
        b ∈ titleCandidates ∧ 80 ≤ s) ∧
    ∃ b, b ∈ titleCandidates ∧ keyword_score cv [] [] = (6, [roleLabel b], []) := by
  have hocc : containsSub ((strLower cv).take 2000) ("devops".toList) = true := by
    have h2 := containsSub_map Char.toLower h
    rw [(by decide : ("devops".toList).map Char.toLower = "devops".toList)] at h2
    rw [strLower, ← List.map_take]
    exact h2
  have hdev : bestWindowSim ((strLower cv).take 2000) ("devops".toList) = 100 :=
    bestWindowSim_eq_100_of_occ (by decide) hocc
  obtain ⟨b, s, hbest, hbmem, hs, hball⟩ :=
    extractOneBest_spec ((strLower cv).take 2000) titleCandidates (by decide)
  have h100 : (100:ℚ) ≤ s := hdev ▸ hball ("devops".toList) (by decide)
  have h80 : (80:ℚ) ≤ s := le_trans (by norm_num) h100
  refine ⟨⟨b, s, hbest, hbmem, h80⟩, b, hbmem, ?_⟩
  simp only [keyword_score, List.foldl_nil]
  rw [fuzzyTitleBonus_eq _ _ _ hbest _, if_pos h80]
  dsimp only
  norm_num [clampScore]

/-- Witness for C3 at the concrete résumé text `devops`. -/
theorem claim_c3_witness :
    containsSub (("devops".toList).take 2000) ("devops".toList) = true ∧
    ((∃ b s, extractOneBest ((strLower ("devops".toList)).take 2000) titleCandidates =
          some (b, s) ∧ b ∈ titleCandidates ∧ 80 ≤ s) ∧
      ∃ b, b ∈ titleCandidates ∧
        keyword_score ("devops".toList) [] [] = (6, [roleLabel b], [])) :=
  ⟨by decide, claim_c3_devops_fuzzy_bonus ("devops".toList) (by decide)⟩

/-- C2 (amended): a job description whose lowercased form contains the
trigger substrings `sql`, `api` and `linux` and no other trigger
substring derives `wanted = [sql, api, rest, linux]` (the `api` trigger
adds both `api` and `rest`) and `nice = []`; a résumé containing none of
the derived wanted keywords gets zero wanted-keyword points, a final score
between 0 and the 6-point fuzzy bonus, and exactly four gap entries. -/
theorem claim_c2_amended_gap_entries (jd cv : List Char)
    (hsql : containsSub (strLower jd) ("sql".toList) = true)
    (hapi : containsSub (strLower jd) ("api".toList) = true)
    (hlinux : containsSub (strLower jd) ("linux".toList) = true)
    (hrest : containsSub (strLower jd) ("rest".toList) = false)
    (hsupport : containsSub (strLower jd) ("support".toList) = false)
    (haws : containsSub (strLower jd) ("aws".toList) = false)
    (hgraf : containsSub (strLower jd) ("grafana".toList) = false)
    (hopen : containsSub (strLower jd) ("opensearch".toList) = false)
    (hpy : containsSub (strLower jd) ("python".toList) = false)
    (hbash : containsSub (strLower jd) ("bash".toList) = false)
    (hkub : containsSub (strLower jd) ("kubernetes".toList) = false)
    (hcv : ∀ k ∈ (deriveSkills jd).1, containsSub (strLower cv) k = false) :
    deriveSkills jd =
      ([ "sql".toList, "api".toList, "rest".toList, "linux".toList ], []) ∧
    ((deriveSkills jd).1.filter (fun k => containsSub (strLower cv) k)) = [] ∧
    0 ≤ (keyword_score cv (deriveSkills jd).1 (deriveSkills jd).2).1 ∧
    (keyword_score cv (deriveSkills jd).1 (deriveSkills jd).2).1 ≤ 6 ∧
    (keyword_score cv (deriveSkills jd).1 (deriveSkills jd).2).2.2 =
      [ "sql".toList, "api".toList, "rest".toList, "linux".toList ] ∧
    (keyword_score cv (deriveSkills jd).1 (deriveSkills jd).2).2.2.length = 4 := by
  have hds : deriveSkills jd =
      ([ "sql".toList, "api".toList, "rest".toList, "linux".toList ], []) := by
    simp only [deriveSkills]
    rw [hsql, hapi, hlinux, hrest, hsupport, haws, hgraf, hopen, hpy, hbash, hkub]
    decide
  have h1 := hcv ("sql".toList) (by rw [hds]; decide)
  have h2 := hcv ("api".toList) (by rw [hds]; decide)
  have h3 := hcv ("rest".toList) (by rw [hds]; decide)
  have h4 := hcv ("linux".toList) (by rw [hds]; decide)
  obtain ⟨extra, hex, heq⟩ := keyword_score_char cv (deriveSkills jd).1 (deriveSkills jd).2
  have hw1 : (deriveSkills jd).1 = [ "sql".toList, "api".toList, "rest".toList, "linux".toList ] := by
    rw [hds]
  have hn1 : (deriveSkills jd).2 = ([] : List (List Char)) := by rw [hds]
  rw [hw1, hn1] at heq
  have hfilpos :
      ([ "sql".toList, "api".toList, "rest".toList, "linux".toList ] :
          List (List Char)).filter (fun k => containsSub (strLower cv) k) = [] := by
    simp only [List.filter_cons, List.filter_nil, h1, h2, h3, h4]
    simp
  have hfilneg :
      ([ "sql".toList, "api".toList, "rest".toList, "linux".toList ] :
          List (List Char)).filter (fun k => !(containsSub (strLower cv) k)) =
        [ "sql".toList, "api".toList, "rest".toList, "linux".toList ] := by
    simp only [List.filter_cons, List.filter_nil, h1, h2, h3, h4]
    simp
  rw [hfilpos, hfilneg, List.filter_nil] at heq
  have hscore :
      (keyword_score cv (deriveSkills jd).1 (deriveSkills jd).2).1 =
        clampScore (6 * (extra.length : Int)) := by
    rw [hw1, hn1, heq]
    dsimp only
    norm_num
  refine ⟨hds, by rw [hw1]; exact hfilpos, ?_, ?_, ?_, ?_⟩
  · rw [hscore]
    unfold clampScore
    exact le_max_left 0 _
  · rw [hscore]
    rcases hex with rfl | ⟨b, _, rfl⟩ <;> simp [clampScore]
  · rw [hw1, hn1, heq]
  · rw [hw1, hn1, heq]
    dsimp only
    decide

/-- Counterexample to C2 as stated: at the job description `sql api linux`
and the empty résumé text all the premises of C2 hold, yet the heuristic
scorer produces four gap entries, not three. -/
theorem claim_c2_counterexample :
    (containsSub (strLower ("sql api linux".toList)) ("sql".toList) = true ∧
     containsSub (strLower ("sql api linux".toList)) ("api".toList) = true ∧
     containsSub (strLower ("sql api linux".toList)) ("linux".toList) = true ∧
     containsSub (strLower ("sql api linux".toList)) ("rest".toList) = false ∧
     containsSub (strLower ("sql api linux".toList)) ("support".toList) = false ∧
     containsSub (strLower ("sql api linux".toList)) ("aws".toList) = false ∧
     containsSub (strLower ("sql api linux".toList)) ("grafana".toList) = false ∧
     containsSub (strLower ("sql api linux".toList)) ("opensearch".toList) = false ∧
     containsSub (strLower ("sql api linux".toList)) ("python".toList) = false ∧
     containsSub (strLower ("sql api linux".toList)) ("bash".toList) = false ∧
     containsSub (strLower ("sql api linux".toList)) ("kubernetes".toList) = false) ∧
    (∀ k ∈ (deriveSkills ("sql api linux".toList)).1,
        containsSub (strLower ([] : List Char)) k = false) ∧
    ¬ ((keyword_score ([] : List Char) (deriveSkills ("sql api linux".toList)).1
          (deriveSkills ("sql api linux".toList)).2).2.2.length = 3) := by
  decide

/-- Witness for the amended C2 at the job description `sql api linux` and
the empty résumé text. -/
theorem claim_c2_witness :
    deriveSkills ("sql api linux".toList) =
      ([ "sql".toList, "api".toList, "rest".toList, "linux".toList ], []) ∧
    ((deriveSkills ("sql api linux".toList)).1.filter
        (fun k => containsSub (strLower ([] : List Char)) k)) = [] ∧
    0 ≤ (keyword_score ([] : List Char) (deriveSkills ("sql api linux".toList)).1
          (deriveSkills ("sql api linux".toList)).2).1 ∧
    (keyword_score ([] : List Char) (deriveSkills ("sql api linux".toList)).1
          (deriveSkills ("sql api linux".toList)).2).1 ≤ 6 ∧
    (keyword_score ([] : List Char) (deriveSkills ("sql api linux".toList)).1
          (deriveSkills ("sql api linux".toList)).2).2.2 =
      [ "sql".toList, "api".toList, "rest".toList, "linux".toList ] ∧
    (keyword_score ([] : List Char) (deriveSkills ("sql api linux".toList)).1
          (deriveSkills ("sql api linux".toList)).2).2.2.length = 4 :=
  claim_c2_amended_gap_entries ("sql api linux".toList) ([] : List Char)
    (by decide) (by decide) (by decide) (by decide) (by decide) (by decide)
    (by decide) (by decide) (by decide) (by decide) (by decide) (by decide)

/-! ## Claim theorems: skill-set derivation and response assembly -/

theorem req_if_nodup {w ks : List (List Char)} (hw : w.Nodup) (hk : ks.Nodup) :
    (req_if w ks).Nodup := by
  unfold req_if
  refine List.Nodup.append hw (hk.filter _) ?_
  intro a h1 h2
  have hb := List.of_mem_filter h2
  have hcontains : w.contains a = true := List.elem_iff.mpr h1
  rw [hcontains] at hb
  simp at hb

theorem nice_if_nodup {w ks : List (List Char)} (hw : w.Nodup) (hk : ks.Nodup) :
    (nice_if w ks).Nodup := by
  unfold nice_if
  refine List.Nodup.append hw (hk.filter _) ?_
  intro a h1 h2
  have hb := List.of_mem_filter h2
  have hcontains : w.contains a = true := List.elem_iff.mpr h1
  rw [hcontains] at hb
  simp at hb

theorem ite_req_if_nodup {c : Prop} [Decidable c] {w ks : List (List Char)}
    (hw : w.Nodup) (hk : ks.Nodup) : (if c then req_if w ks else w).Nodup := by
  split
  · exact req_if_nodup hw hk
  · exact hw

theorem ite_nice_if_nodup {c : Prop} [Decidable c] {w ks : List (List Char)}
    (hw : w.Nodup) (hk : ks.Nodup) : (if c then nice_if w ks else w).Nodup := by
  split
  · exact nice_if_nodup hw hk
  · exact hw

/-- C4: the wanted/nice keyword sets are a deterministic function of which
trigger substrings occur in the lowercased job description: each keyword
appears at most once per set, and two job descriptions agreeing on every
trigger-substring presence check derive equal wanted and nice lists. -/
theorem claim_c4_skillset_derivation :
    (∀ jd : List Char, ((deriveSkills jd).1).Nodup ∧ ((deriveSkills jd).2).Nodup) ∧
    (∀ jd1 jd2 : List Char,
      (∀ t ∈ triggerList, containsSub (strLower jd1) t = containsSub (strLower jd2) t) →
      deriveSkills jd1 = deriveSkills jd2) := by
  constructor
  · intro jd
    constructor
    · simp only [deriveSkills]
      exact ite_req_if_nodup
        (ite_req_if_nodup (ite_req_if_nodup (ite_req_if_nodup List.nodup_nil (by decide))
          (by decide)) (by decide)) (by decide)
    · simp only [deriveSkills]
      exact ite_nice_if_nodup
        (ite_nice_if_nodup (ite_nice_if_nodup (ite_nice_if_nodup List.nodup_nil (by decide))
          (by decide)) (by decide)) (by decide)
  · intro jd1 jd2 h
    have h1 := h ("sql".toList) (by decide)
    have h2 := h ("rest".toList) (by decide)
    have h3 := h ("api".toList) (by decide)
    have h4 := h ("linux".toList) (by decide)
    have h5 := h ("aws".toList) (by decide)
    have h6 := h ("grafana".toList) (by decide)
    have h7 := h ("opensearch".toList) (by decide)
    have h8 := h ("python".toList) (by decide)
    have h9 := h ("bash".toList) (by decide)
    have h10 := h ("kubernetes".toList) (by decide)
    have h11 := h ("support".toList) (by decide)
    simp only [deriveSkills]
    rw [h1, h2, h3, h4, h5, h6, h7, h8, h9, h10, h11]

/-- Witness for C4 at two concrete job descriptions with the same trigger
signals but different phrasing, order and repetition. -/
theorem claim_c4_witness :
    (∀ t ∈ triggerList,
        containsSub (strLower ("We need SQL and Python developers".toList)) t =
          containsSub (strLower ("python, python, sql!".toList)) t) ∧
    deriveSkills ("We need SQL and Python developers".toList) =
      deriveSkills ("python, python, sql!".toList) :=
  ⟨by decide, claim_c4_skillset_derivation.2 _ _ (by decide)⟩

/-- C5: for every heuristic analysis the assembled response has at most
six highlights, each prefixed `Found: `, at most six gaps, each prefixed
`Missing signal for: `, the static salary-range string (independent of the
input), and a suggestions list that is never empty and has at most six
entries (the generic fallback replaces an empty list). -/
theorem suggWrap_length_le (s : List (List Char)) :
    (if (s.take 6).isEmpty then [suggFallback] else s.take 6).length ≤ 6 := by
  split
  · simp
  · rw [List.length_take]
    exact Nat.min_le_left _ _

theorem suggWrap_ne_nil (s : List (List Char)) :
    (if (s.take 6).isEmpty then [suggFallback] else s.take 6) ≠ [] := by
  split
  · simp
  · rename_i hcond
    simpa [List.isEmpty_iff] using hcond

theorem claim_c5_response_assembly (jd cv : List Char) :
    (analyze jd cv).highlights.length ≤ 6 ∧
    (∀ h ∈ (analyze jd cv).highlights, ∃ t, h = "Found: ".toList ++ t) ∧
    (analyze jd cv).gaps.length ≤ 6 ∧
    (∀ g ∈ (analyze jd cv).gaps, ∃ t, g = "Missing signal for: ".toList ++ t) ∧
    (analyze jd cv).salary_range = salaryNote ∧
    (analyze jd cv).suggestions.length ≤ 6 ∧
    (analyze jd cv).suggestions ≠ [] := by
  simp only [analyze]
  refine ⟨?_, ?_, ?_, ?_, by trivial, ?_, ?_⟩
  · rw [List.length_take]
    exact Nat.min_le_left _ _
  · intro h hmem
    have hm := List.mem_of_mem_take hmem
    obtain ⟨x, _, rfl⟩ := List.mem_map.mp hm
    exact ⟨x, rfl⟩
  · rw [List.length_take]
    exact Nat.min_le_left _ _
  · intro g hmem
    have hm := List.mem_of_mem_take hmem
    obtain ⟨x, _, rfl⟩ := List.mem_map.mp hm
    exact ⟨x, rfl⟩
  · exact suggWrap_length_le _
  · exact suggWrap_ne_nil _

/-! ## Claim theorems: hardened service -/

theorem ensure_size_fst (maxMB : Nat) (f : FileStream) : (ensure_size maxMB f).1 = f := by
  simp only [ensure_size]
  split <;> rfl

theorem ensure_size_oversize {maxMB : Nat} {f : FileStream}
    (h : f.data.length > maxMB * 1024 * 1024) :
    ensure_size maxMB f = (f, some (PyExc.http 413 fileTooLargeDetail)) := by
  simp only [ensure_size]
  rw [if_pos h]

theorem ensure_size_ok {maxMB : Nat} {f : FileStream}
    (h : ¬ f.data.length > maxMB * 1024 * 1024) :
    ensure_size maxMB f = (f, none) := by
  simp only [ensure_size]
  rw [if_neg h]

/-- C8: an uploaded file whose byte length exceeds the configured ceiling
is rejected with HTTP 413 before any format-specific extraction happens
(the result does not depend on the extraction functions), and the size
check restores the stream state instead of buffering the content twice. -/
theorem claim_c8_file_size_gate (dX dX' pX pX' : List Nat → Except PyExc (List Char))
    (maxMB : Nat) (up : UploadedFile)
    (h : up.file.data.length > maxMB * 1024 * 1024) :
    (read_file_content dX pX maxMB up).2 =
        Except.error (PyExc.http 413 fileTooLargeDetail) ∧
    read_file_content dX pX maxMB up = read_file_content dX' pX' maxMB up ∧
    (read_file_content dX pX maxMB up).1 = up.file ∧
    (∀ g : FileStream, (ensure_size maxMB g).1 = g) := by
  have he := ensure_size_oversize (f := up.file) h
  refine ⟨?_, ?_, ?_, fun g => ensure_size_fst maxMB g⟩
  · simp only [read_file_content, he]
  · simp only [read_file_content, he]
  · simp only [read_file_content, he]

/-- Witness for C8: a one-byte file with a zero-megabyte ceiling. -/
theorem claim_c8_witness :
    ((⟨some ("a.docx".toList), ⟨[7], 0⟩⟩ : UploadedFile).file.data.length > 0 * 1024 * 1024) ∧
    ((read_file_content (fun _ => Except.error (PyExc.lib ("boom".toList)))
          (fun _ => Except.ok []) 0 ⟨some ("a.docx".toList), ⟨[7], 0⟩⟩).2 =
        Except.error (PyExc.http 413 fileTooLargeDetail) ∧
      read_file_content (fun _ => Except.error (PyExc.lib ("boom".toList)))
          (fun _ => Except.ok []) 0 ⟨some ("a.docx".toList), ⟨[7], 0⟩⟩ =
        read_file_content (fun _ => Except.ok []) (fun _ => Except.error (PyExc.lib ("x".toList)))
          0 ⟨some ("a.docx".toList), ⟨[7], 0⟩⟩ ∧
      (read_file_content (fun _ => Except.error (PyExc.lib ("boom".toList)))
          (fun _ => Except.ok []) 0 ⟨some ("a.docx".toList), ⟨[7], 0⟩⟩).1 =
        (⟨some ("a.docx".toList), ⟨[7], 0⟩⟩ : UploadedFile).file ∧
      (∀ g : FileStream, (ensure_size 0 g).1 = g)) :=
  ⟨by decide,
    claim_c8_file_size_gate (fun _ => Except.error (PyExc.lib ("boom".toList)))
      (fun _ => Except.ok []) (fun _ => Except.ok [])
      (fun _ => Except.error (PyExc.lib ("x".toList))) 0
      ⟨some ("a.docx".toList), ⟨[7], 0⟩⟩ (by decide)⟩

/-- C7: an uploaded file whose lowercased filename has none of the
supported suffixes is handled by the best-effort lossy UTF-8 fallback
decode; the result is either that decoded text or a typed HTTP 400
error (in the source the 400 arm is unreachable because the lossy decode
is total, so the first disjunct always holds). -/
theorem claim_c7_unsupported_extension (dX pX : List Nat → Except PyExc (List Char))
    (maxMB : Nat) (up : UploadedFile)
    (htxt : listEndsWith (strLower (uploadName up)) (".txt".toList) = false)
    (hdocx : listEndsWith (strLower (uploadName up)) (".docx".toList) = false)
    (hpdf : listEndsWith (strLower (uploadName up)) (".pdf".toList) = false)
    (hsize : ¬ up.file.data.length > maxMB * 1024 * 1024) :
    (read_file_content dX pX maxMB up).2 =
        Except.ok (utf8DecodeIgnore (up.file.data.drop up.file.pos)) ∧
    ((read_file_content dX pX maxMB up).2 =
        Except.ok (utf8DecodeIgnore (up.file.data.drop up.file.pos)) ∨
      ∃ d, (read_file_content dX pX maxMB up).2 = Except.error (PyExc.http 400 d)) := by
  have he := ensure_size_ok (f := up.file) hsize
  have hmain : (read_file_content dX pX maxMB up).2 =
      Except.ok (utf8DecodeIgnore (up.file.data.drop up.file.pos)) := by
    simp only [read_file_content, he, htxt, hdocx, hpdf]
    simp
  exact ⟨hmain, Or.inl hmain⟩

/-- Witness for C7: a two-byte `.bin` file decoded by the fallback. -/
theorem claim_c7_witness :
    (listEndsWith (strLower (uploadName ⟨some ("data.bin".toList), ⟨[104, 105], 0⟩⟩))
        (".txt".toList) = false ∧
     listEndsWith (strLower (uploadName ⟨some ("data.bin".toList), ⟨[104, 105], 0⟩⟩))
        (".docx".toList) = false ∧
     listEndsWith (strLower (uploadName ⟨some ("data.bin".toList), ⟨[104, 105], 0⟩⟩))
        (".pdf".toList) = false ∧
     ¬ (⟨some ("data.bin".toList), ⟨[104, 105], 0⟩⟩ : UploadedFile).file.data.length >
        8 * 1024 * 1024) ∧
    ((read_file_content (fun _ => Except.error (PyExc.lib ("d".toList)))
          (fun _ => Except.error (PyExc.lib ("p".toList))) 8
          ⟨some ("data.bin".toList), ⟨[104, 105], 0⟩⟩).2 =
        Except.ok (utf8DecodeIgnore
          ((⟨some ("data.bin".toList), ⟨[104, 105], 0⟩⟩ : UploadedFile).file.data.drop
            (⟨some ("data.bin".toList), ⟨[104, 105], 0⟩⟩ : UploadedFile).file.pos)) ∨
      ∃ d, (read_file_content (fun _ => Except.error (PyExc.lib ("d".toList)))
          (fun _ => Except.error (PyExc.lib ("p".toList))) 8
          ⟨some ("data.bin".toList), ⟨[104, 105], 0⟩⟩).2 =
        Except.error (PyExc.http 400 d)) :=
  ⟨⟨by decide, by decide, by decide, by decide⟩,
    (claim_c7_unsupported_extension (fun _ => Except.error (PyExc.lib ("d".toList)))
      (fun _ => Except.error (PyExc.lib ("p".toList))) 8
      ⟨some ("data.bin".toList), ⟨[104, 105], 0⟩⟩
      (by decide) (by decide) (by decide) (by decide)).2⟩

/-- C6: the batch endpoint returns exactly one result per uploaded file,
in file order; a file whose extraction or chat call raises yields the
placeholder item with `fit_score` 0 and a `fit_reason` containing
`Error`, without aborting the processing of the other files (every item
is the per-file function of its own file only). -/
theorem claim_c6_batch_failure_isolation (dX pX : List Nat → Except PyExc (List Char))
    (chat : List Char → Except PyExc AnalyzeResponse) (maxMB : Nat)
    (jd : List Char) (files : List UploadedFile) :
    (analyze_batch dX pX chat maxMB jd files).results.length = files.length ∧
    (analyze_batch dX pX chat maxMB jd files).results =
      files.map (processOne dX pX chat maxMB (jd.take 60000)) ∧
    (analyze_batch dX pX chat maxMB jd files).job_description = jd ∧
    ∀ f e, fileOutcome dX pX chat maxMB (jd.take 60000) f = Except.error e →
      processOne dX pX chat maxMB (jd.take 60000) f = failedItem f e ∧
      (processOne dX pX chat maxMB (jd.take 60000) f).result.fit_score = 0 ∧
      containsSub (processOne dX pX chat maxMB (jd.take 60000) f).result.fit_reason
        ("Error".toList) = true := by
  refine ⟨by simp [analyze_batch], rfl, rfl, ?_⟩
  intro f e he
  have hpo : processOne dX pX chat maxMB (jd.take 60000) f = failedItem f e := by
    unfold processOne
    rw [he]
  refine ⟨hpo, by rw [hpo]; rfl, ?_⟩
  rw [hpo]
  unfold failedItem
  dsimp only
  exact containsSub_of_take_eq (by decide)

/-- Witness for C6: three files, the second a `.pdf` whose extractor
raises; the batch still has three items and the failed file gets the
placeholder. -/
theorem claim_c6_witness :
    (analyze_batch (fun bs => Except.ok (utf8DecodeIgnore bs))
        (fun _ => Except.error (PyExc.lib ("pdf parse failed".toList)))
        (fun _ => Except.ok ⟨[], 50, "fits".toList, "broad".toList⟩) 8
        ("backend role".toList)
        [⟨some ("a.txt".toList), ⟨[104, 105], 0⟩⟩,
         ⟨some ("b.pdf".toList), ⟨[37, 80], 0⟩⟩,
         ⟨some ("c.txt".toList), ⟨[104], 0⟩⟩]).results.length = 3 ∧
    (processOne (fun bs => Except.ok (utf8DecodeIgnore bs))
        (fun _ => Except.error (PyExc.lib ("pdf parse failed".toList)))
        (fun _ => Except.ok ⟨[], 50, "fits".toList, "broad".toList⟩) 8
        (("backend role".toList).take 60000) ⟨some ("b.pdf".toList), ⟨[37, 80], 0⟩⟩ =
      failedItem ⟨some ("b.pdf".toList), ⟨[37, 80], 0⟩⟩
        (PyExc.lib ("pdf parse failed".toList)) ∧
     (processOne (fun bs => Except.ok (utf8DecodeIgnore bs))
        (fun _ => Except.error (PyExc.lib ("pdf parse failed".toList)))
        (fun _ => Except.ok ⟨[], 50, "fits".toList, "broad".toList⟩) 8
        (("backend role".toList).take 60000)
        ⟨some ("b.pdf".toList), ⟨[37, 80], 0⟩⟩).result.fit_score = 0 ∧
     containsSub (processOne (fun bs => Except.ok (utf8DecodeIgnore bs))
        (fun _ => Except.error (PyExc.lib ("pdf parse failed".toList)))
        (fun _ => Except.ok ⟨[], 50, "fits".toList, "broad".toList⟩) 8
        (("backend role".toList).take 60000)
        ⟨some ("b.pdf".toList), ⟨[37, 80], 0⟩⟩).result.fit_reason
       ("Error".toList) = true) :=
  ⟨(claim_c6_batch_failure_isolation (fun bs => Except.ok (utf8DecodeIgnore bs))
      (fun _ => Except.error (PyExc.lib ("pdf parse failed".toList)))
      (fun _ => Except.ok ⟨[], 50, "fits".toList, "broad".toList⟩) 8
      ("backend role".toList)
      [⟨some ("a.txt".toList), ⟨[104, 105], 0⟩⟩,
       ⟨some ("b.pdf".toList), ⟨[37, 80], 0⟩⟩,
       ⟨some ("c.txt".toList), ⟨[104], 0⟩⟩]).1,
   (claim_c6_batch_failure_isolation (fun bs => Except.ok (utf8DecodeIgnore bs))
      (fun _ => Except.error (PyExc.lib ("pdf parse failed".toList)))
      (fun _ => Except.ok ⟨[], 50, "fits".toList, "broad".toList⟩) 8
      ("backend role".toList)
      [⟨some ("a.txt".toList), ⟨[104, 105], 0⟩⟩,
       ⟨some ("b.pdf".toList), ⟨[37, 80], 0⟩⟩,
       ⟨some ("c.txt".toList), ⟨[104], 0⟩⟩]).2.2.2
     ⟨some ("b.pdf".toList), ⟨[37, 80], 0⟩⟩ (PyExc.lib ("pdf parse failed".toList)) rfl⟩

theorem rateLimitRun_rejected (last : ℚ) (ts : List ℚ)
    (h : ∀ t ∈ ts, t - last < MIN_INTERVAL_SEC) : rateLimitRun last ts = last := by
  induction ts with
  | nil => rfl
  | cons t ts ih =>
    unfold rateLimitRun
    simp only [List.foldl_cons]
    have hstep : (rate_limit last t).1 = last := by
      unfold rate_limit
      rw [if_pos (h t (by simp))]
    rw [hstep]
    exact ih (fun x hx => h x (by simp [hx]))

/-- C10 (implicit): the shared timestamp is updated only on accepted
requests — a call rejected with 429 leaves the last-accepted-call
timestamp unchanged, so after any burst of rejected requests the next
call is decided exactly as if the burst had not happened. -/
theorem claim_c10_rejections_keep_timestamp (last now : ℚ) (ts : List ℚ)
    (hrej : ∀ t ∈ ts, t - last < MIN_INTERVAL_SEC) :
    (now - last < MIN_INTERVAL_SEC →
      rate_limit last now =
        (last, some (PyExc.http 429 ("Too many requests; please slow down.".toList)))) ∧
    rateLimitRun last ts = last ∧
    rate_limit (rateLimitRun last ts) now = rate_limit last now := by
  have hrun := rateLimitRun_rejected last ts hrej
  refine ⟨?_, hrun, by rw [hrun]⟩
  intro hn
  unfold rate_limit
  rw [if_pos hn]

theorem burst_times_rejected : ∀ t ∈ ([0, 0] : List ℚ), t - 0 < MIN_INTERVAL_SEC := by
  intro t ht
  rcases List.mem_cons.mp ht with rfl | ht2
  · norm_num [MIN_INTERVAL_SEC, Rat.mkRat_eq_div]
  · rcases List.mem_cons.mp ht2 with rfl | h3
    · norm_num [MIN_INTERVAL_SEC, Rat.mkRat_eq_div]
    · cases h3

/-- Witness for C10: a burst of two rejected calls at time 0 with the
last accepted call also at time 0. -/
theorem claim_c10_witness :
    (∀ t ∈ ([0, 0] : List ℚ), t - 0 < MIN_INTERVAL_SEC) ∧
    ((0 - 0 < MIN_INTERVAL_SEC →
        rate_limit 0 0 =
          (0, some (PyExc.http 429 ("Too many requests; please slow down.".toList)))) ∧
      rateLimitRun 0 [0, 0] = 0 ∧
      rate_limit (rateLimitRun 0 [0, 0]) 0 = rate_limit 0 0) :=
  ⟨burst_times_rejected,
    claim_c10_rejections_keep_timestamp 0 0 [0, 0] burst_times_rejected⟩
